import Mathlib

/-!
Verification of the JNANA leaderboard scoring and classification pipeline
(`src/app.py` and `src/working_1.py`), shallowly embedded in Lean.

Text values are embedded as `String` (or `List Char` where per-character
operations of Python are modelled), Python floats as exact rationals `ℚ`,
and JSON values as an inductive `JVal`.
-/

namespace Jnana

/-- A JSON-like value as it appears in an uploaded record field.
`jBool` is kept distinct from `jInt`, but note that Python treats `bool`
as a subclass of `int`, which `isNumVal` below reproduces. -/
inductive JVal where
  | jStr (s : String)
  | jInt (n : Int)
  | jNum (q : ℚ)
  | jBool (b : Bool)
  | jNull
deriving DecidableEq

/-- One evaluation record as consumed by the aggregation loop, after the
upload validation has established the field types
(`src/app.py` REQUIRED_FIELDS and `validate_submission`).
`type` is the pre-supplied category label; it is `Option` so that the
specified derivation branch for unlabeled records can be stated, although
upload validation in the source requires the field. -/
structure EvalRecord where
  content_id : String
  qa_index : Int
  question : String
  gold_answer : String
  prediction : String
  exact_match : Bool
  f1_score : ℚ
  answerable : Bool
  hallucinated : Bool
  type : Option String
  content_text : Option String
deriving DecidableEq

/-- Modelled from the spec: trimming surrounding whitespace from a text,
as Python str.strip does, character by character. The derived-classification
branch that uses it is absent from `src/` (see `classify`). -/
def stripText (s : String) : List Char :=
  ((s.data.dropWhile Char.isWhitespace).reverse.dropWhile Char.isWhitespace).reverse

/-- Modelled from the spec: the fixed priority-order derivation of a
category for a record with no pre-supplied label (spec section 4.1). This
branch is absent from `src/`: both variants assign `breakdown` from the
required `type` field, and upload validation rejects records without it,
so only the spec describes what an unlabeled record would get. -/
def deriveCategory (r : EvalRecord) : String :=
  if r.hallucinated then "hallucinated"
  else if stripText r.prediction = [] then "empty"
  else if r.exact_match then "faithful_correct"
  else "faithful_incorrect"

/-- The classifier. For a record carrying a pre-supplied label the source is
`df["breakdown"] = df["type"]` (`src/app.py` line 136, `src/working_1.py`
line 104): the label is returned verbatim. A record without a label falls
back to the spec-modelled `deriveCategory`. -/
def classify (r : EvalRecord) : String :=
  match r.type with
  | some t => t
  | none => deriveCategory r

end Jnana

namespace Jnana

/-- Claim C1: for a record with no pre-supplied category label, classification
follows the fixed priority order, first match wins: hallucinated, then empty
(prediction trims to nothing), then faithful_correct (exact match), else
faithful_incorrect; in particular a hallucinated record with an empty
prediction is classified hallucinated, never empty. -/
theorem classify_priority_order (r : EvalRecord) (h : r.type = none) :
    (r.hallucinated = true → classify r = "hallucinated")
    ∧ (r.hallucinated = false → stripText r.prediction = [] → classify r = "empty")
    ∧ (r.hallucinated = false → stripText r.prediction ≠ [] → r.exact_match = true →
        classify r = "faithful_correct")
    ∧ (r.hallucinated = false → stripText r.prediction ≠ [] → r.exact_match = false →
        classify r = "faithful_incorrect")
    ∧ (r.hallucinated = true → stripText r.prediction = [] → classify r ≠ "empty") := by
  unfold classify deriveCategory
  rw [h]
  refine ⟨fun hh => by simp [hh], fun hh hp => by simp [hh, hp],
    fun hh hp he => ?_, fun hh hp he => ?_, fun hh _ => by simp [hh]⟩
  · simp [hh, hp, he]
  · simp [hh, hp, he]

/-- A record with `hallucinated = true` and a whitespace-only prediction,
carrying no pre-supplied label. -/
def recordEdge : EvalRecord :=
  { content_id := "c1", qa_index := 0, question := "q", gold_answer := "g"
    prediction := "   ", exact_match := false, f1_score := 0
    answerable := false, hallucinated := true, type := none, content_text := none }

/-- Witness for C1: the edge record is classified hallucinated, not empty. -/
theorem classify_priority_order_witness :
    classify recordEdge = "hallucinated" ∧ classify recordEdge ≠ "empty" :=
  ⟨(classify_priority_order recordEdge rfl).1 rfl,
   (classify_priority_order recordEdge rfl).2.2.2.2 rfl (by decide)⟩

/-- Claim C2: a record carrying a pre-supplied category label is classified as
that label verbatim, whatever the values of `hallucinated`, `prediction` and
`exact_match` are: no re-derivation and no consistency check. -/
theorem classify_presupplied_label (r : EvalRecord) (t : String)
    (h : r.type = some t) : classify r = t := by
  unfold classify
  rw [h]

/-- A record whose pre-supplied label contradicts its other fields:
labelled empty although the prediction is non-empty and an exact match. -/
def recordInconsistent : EvalRecord :=
  { content_id := "c2", qa_index := 1, question := "q", gold_answer := "g"
    prediction := "answer", exact_match := true, f1_score := 1
    answerable := true, hallucinated := false, type := some "empty"
    content_text := none }

/-- Witness for C2: the inconsistent label is returned unchanged. -/
theorem classify_presupplied_label_witness :
    classify recordInconsistent = "empty" :=
  classify_presupplied_label recordInconsistent "empty" rfl

/-- Booleans as rationals, `True` as `1` and `False` as `0`: the coercion
pandas applies when taking the mean of a boolean column. -/
def boolToRat (b : Bool) : ℚ := if b then 1 else 0

/-- Arithmetic mean of a list of rationals, as pandas `Series.mean`. -/
def mean (xs : List ℚ) : ℚ := xs.sum / xs.length

/-- Rounding to the nearest integer with ties to even, the tie-breaking rule
of the Python built-in `round`. -/
def roundHalfEven (q : ℚ) : ℤ :=
  if q - ⌊q⌋ < 1/2 then ⌊q⌋
  else if q - ⌊q⌋ > 1/2 then ⌊q⌋ + 1
  else if 2 ∣ ⌊q⌋ then ⌊q⌋ else ⌊q⌋ + 1

/-- Python `round(q, 2)` on an exact rational. -/
def round2 (q : ℚ) : ℚ := (roundHalfEven (q * 100) : ℚ) / 100

/-- Number of records of a submission classified as category `c`, the count
behind `df["breakdown"].value_counts()`. -/
def countCat (rs : List EvalRecord) (c : String) : ℕ :=
  (rs.filter (fun r => decide (classify r = c))).length

/-- The share, in percent rounded to two decimals, that
`value_counts(normalize=True).mul(100).round(2).to_dict()` followed by
`.get(c, 0.0)` reports for category `c`: a dictionary entry exists only for
categories with a non-zero count, and absent categories default to `0.0`
(`src/app.py` lines 146 and 157 to 158, `src/working_1.py` lines 114 and
125 to 127). -/
def sharePct (rs : List EvalRecord) (c : String) : ℚ :=
  if countCat rs c = 0 then 0
  else round2 ((countCat rs c : ℚ) / rs.length * 100)

/-- One leaderboard row, with the metric fields of the dictionaries built in
`src/app.py` lines 148 to 160 and `src/working_1.py` lines 115 to 128
(the latter adds the hallucinated share, here `hallucinatedShare`). -/
structure LeaderboardRow where
  model : String
  author : String
  samples : ℕ
  em : ℚ
  f1 : ℚ
  answered : ℚ
  hallucinatedPct : ℚ
  faithfulCorrect : ℚ
  faithfulIncorrect : ℚ
  hallucinatedShare : ℚ
  emptyShare : ℚ
deriving DecidableEq

/-- The leaderboard row computed for one submission: each scalar metric is
`round(df[col].mean() * 100, 2)`, the faithful-correct percentage is
`round((df["breakdown"] == "faithful_correct").mean() * 100, 2)`, and the
remaining breakdown columns come from the `value_counts` dictionary. -/
def rowOf (model author : String) (rs : List EvalRecord) : LeaderboardRow :=
  { model := model
    author := author
    samples := rs.length
    em := round2 (mean (rs.map (fun r => boolToRat r.exact_match)) * 100)
    f1 := round2 (mean (rs.map (fun r => r.f1_score)) * 100)
    answered := round2 (mean (rs.map (fun r => boolToRat r.answerable)) * 100)
    hallucinatedPct := round2 (mean (rs.map (fun r => boolToRat r.hallucinated)) * 100)
    faithfulCorrect :=
      round2 (mean (rs.map (fun r => boolToRat (decide (classify r = "faithful_correct")))) * 100)
    faithfulIncorrect := sharePct rs "faithful_incorrect"
    hallucinatedShare := sharePct rs "hallucinated"
    emptyShare := sharePct rs "empty" }

/-- The sum of 0/1 indicators over a list is the number of elements
satisfying the predicate. -/
theorem sum_boolToRat_eq_countP (rs : List EvalRecord) (p : EvalRecord → Bool) :
    (rs.map (fun r => boolToRat (p r))).sum = (rs.countP p : ℚ) := by
  induction rs with
  | nil => simp
  | cons r rest ih =>
      rw [List.map_cons, List.sum_cons, ih, List.countP_cons]
      cases hp : p r <;> simp [boolToRat, hp] <;> push_cast <;> ring

/-- The mean of a 0/1 indicator column equals count over length. -/
theorem mean_boolToRat (rs : List EvalRecord) (p : EvalRecord → Bool) :
    mean (rs.map (fun r => boolToRat (p r))) = (rs.countP p : ℚ) / rs.length := by
  unfold mean
  rw [sum_boolToRat_eq_countP, List.length_map]

/-- Claim C3: on a non-empty record list, every scalar metric of the
leaderboard row is the arithmetic mean over the full record set, as a
percentage rounded to two decimals: EM from the exact-match indicators,
F1 from the f1 scores, Answered from the answerable indicators and
Hallucinated from the hallucinated indicators. -/
theorem rowOf_scalar_metrics (model author : String) (rs : List EvalRecord)
    (h : rs ≠ []) :
    (rowOf model author rs).em
        = round2 ((rs.countP (fun r => r.exact_match) : ℚ) / rs.length * 100)
    ∧ (rowOf model author rs).f1
        = round2 ((rs.map (fun r => r.f1_score)).sum / rs.length * 100)
    ∧ (rowOf model author rs).answered
        = round2 ((rs.countP (fun r => r.answerable) : ℚ) / rs.length * 100)
    ∧ (rowOf model author rs).hallucinatedPct
        = round2 ((rs.countP (fun r => r.hallucinated) : ℚ) / rs.length * 100) := by
  refine ⟨?_, ?_, ?_, ?_⟩
  · show round2 (mean (rs.map (fun r => boolToRat r.exact_match)) * 100) = _
    rw [mean_boolToRat rs (fun r => r.exact_match)]
  · show round2 (mean (rs.map (fun r => r.f1_score)) * 100) = _
    unfold mean
    rw [List.length_map]
  · show round2 (mean (rs.map (fun r => boolToRat r.answerable)) * 100) = _
    rw [mean_boolToRat rs (fun r => r.answerable)]
  · show round2 (mean (rs.map (fun r => boolToRat r.hallucinated)) * 100) = _
    rw [mean_boolToRat rs (fun r => r.hallucinated)]

/-- A two-record sample submission: one exact-match faithful record and one
hallucinated record. -/
def samplePair : List EvalRecord :=
  [{ content_id := "c1", qa_index := 0, question := "q1", gold_answer := "g1"
     prediction := "g1", exact_match := true, f1_score := 1
     answerable := true, hallucinated := false, type := some "faithful_correct"
     content_text := none },
   { content_id := "c1", qa_index := 1, question := "q2", gold_answer := "g2"
     prediction := "wrong", exact_match := false, f1_score := 1/2
     answerable := true, hallucinated := true, type := some "hallucinated"
     content_text := none }]

/-- Witness for C3, at the two-record sample. -/
theorem rowOf_scalar_metrics_witness :
    (rowOf "m" "a" samplePair).em
      = round2 ((samplePair.countP (fun r => r.exact_match) : ℚ) / samplePair.length * 100) :=
  (rowOf_scalar_metrics "m" "a" samplePair (by decide)).1

/-- The category count is a `countP`. -/
theorem countCat_eq_countP (rs : List EvalRecord) (c : String) :
    countCat rs c = rs.countP (fun r => decide (classify r = c)) := by
  unfold countCat
  rw [List.countP_eq_length_filter]

/-- Rounding zero gives zero. -/
theorem round2_zero : round2 0 = 0 := by
  norm_num [round2, roundHalfEven]

/-- The `.get(c, 0.0)` share equals the rounded percentage of the category
count in every case, the zero-count default included. -/
theorem sharePct_eq_round2 (rs : List EvalRecord) (c : String) :
    sharePct rs c = round2 ((countCat rs c : ℚ) / rs.length * 100) := by
  unfold sharePct
  split
  · rename_i h0
    rw [h0]
    norm_num [round2_zero]
  · rfl

/-- Nearest-integer rounding with ties to even moves a rational by at most
one half. -/
theorem abs_roundHalfEven_sub_le (q : ℚ) : |(roundHalfEven q : ℚ) - q| ≤ 1/2 := by
  have hfl : (⌊q⌋ : ℚ) ≤ q := Int.floor_le q
  have hfu : q < (⌊q⌋ : ℚ) + 1 := Int.lt_floor_add_one q
  unfold roundHalfEven
  split
  · rename_i h1
    rw [abs_le]
    constructor <;> linarith
  · split
    · rename_i h1 h2
      push_cast
      rw [abs_le]
      constructor <;> linarith
    · rename_i h1 h2
      have heq : q - (⌊q⌋ : ℚ) = 1/2 := by linarith
      split <;> · push_cast; rw [abs_le]; constructor <;> linarith

/-- Rounding to two decimals moves a rational by at most 1/200. -/
theorem abs_round2_sub_le (q : ℚ) : |round2 q - q| ≤ 1/200 := by
  have h := abs_roundHalfEven_sub_le (q * 100)
  unfold round2
  have hrw : (roundHalfEven (q * 100) : ℚ) / 100 - q
      = ((roundHalfEven (q * 100) : ℚ) - q * 100) / 100 := by ring
  rw [hrw, abs_div]
  have : |(100 : ℚ)| = 100 := by norm_num
  rw [this]
  linarith [abs_nonneg ((roundHalfEven (q * 100) : ℚ) - q * 100),
    (div_le_div_iff (by norm_num : (0:ℚ) < 100) (by norm_num : (0:ℚ) < 100)).mpr
      (by linarith : |(roundHalfEven (q * 100) : ℚ) - q * 100| * 100 ≤ (1/2) * 100)]

/-- Claim C4: the Faithful Correct percentage computed via the indicator mean
(`src/app.py` line 156) agrees with the faithful-correct share of the
normalized `value_counts` distribution on every non-empty record list. -/
theorem faithfulCorrect_mean_eq_share (model author : String)
    (rs : List EvalRecord) (h : rs ≠ []) :
    (rowOf model author rs).faithfulCorrect = sharePct rs "faithful_correct" := by
  show round2 (mean (rs.map
      (fun r => boolToRat (decide (classify r = "faithful_correct")))) * 100) = _
  rw [mean_boolToRat rs (fun r => decide (classify r = "faithful_correct")),
    sharePct_eq_round2, countCat_eq_countP]

/-- Witness for C4, at the two-record sample. -/
theorem faithfulCorrect_mean_eq_share_witness :
    (rowOf "m" "a" samplePair).faithfulCorrect = sharePct samplePair "faithful_correct" :=
  faithfulCorrect_mean_eq_share "m" "a" samplePair (by decide)

/-- The four breakdown categories named by the spec. -/
def fourCats : List String :=
  ["hallucinated", "empty", "faithful_correct", "faithful_incorrect"]

/-- A record whose pre-supplied label, when present, is one of the four
breakdown categories. The source never checks this. -/
def labelOk (r : EvalRecord) : Bool :=
  match r.type with
  | some t => fourCats.contains t
  | none => true

/-- The sum of the four category shares reported by the aggregation. -/
def shareSum (rs : List EvalRecord) : ℚ :=
  sharePct rs "hallucinated" + sharePct rs "empty"
    + sharePct rs "faithful_correct" + sharePct rs "faithful_incorrect"

/-- A record classified into one of the four categories is counted by exactly
one of the four category counters, so the counters sum to the list length. -/
theorem countCat_partition (rs : List EvalRecord)
    (h : ∀ r ∈ rs, classify r ∈ fourCats) :
    countCat rs "hallucinated" + countCat rs "empty"
      + countCat rs "faithful_correct" + countCat rs "faithful_incorrect"
      = rs.length := by
  induction rs with
  | nil => simp [countCat]
  | cons r rest ih =>
      have hr : classify r ∈ fourCats := h r (List.mem_cons_self r rest)
      have hrest : ∀ x ∈ rest, classify x ∈ fourCats :=
        fun x hx => h x (List.mem_cons_of_mem r hx)
      have ihr := ih hrest
      simp only [countCat, List.filter_cons, List.length_cons] at ihr ⊢
      simp only [fourCats, List.mem_cons, List.mem_singleton, List.not_mem_nil,
        or_false] at hr
      rcases hr with hc | hc | hc | hc <;>
        · simp [hc]
          omega

/-- An unlabeled record is always derived into one of the four categories;
a labeled record with an admissible label stays in them. -/
theorem classify_mem_fourCats (r : EvalRecord) (h : labelOk r = true) :
    classify r ∈ fourCats := by
  unfold labelOk at h
  unfold classify deriveCategory
  cases htype : r.type with
  | some t =>
      rw [htype] at h
      simpa using h
  | none =>
      by_cases hh : r.hallucinated <;> by_cases hp : stripText r.prediction = [] <;>
        by_cases he : r.exact_match <;> simp [hh, hp, he, fourCats]

/-- Claim C5, amended: on a non-empty record list all of whose pre-supplied
labels (when present) are among the four categories, every record is
classified into exactly one of the four categories, and the four category
shares sum to 100.00 within 1/25 = 0.04. The restriction on the labels is
forced: the source trusts pre-supplied labels verbatim and never validates
them, so a foreign label escapes all four shares. -/
theorem shareSum_near_100 (rs : List EvalRecord) (h1 : rs ≠ [])
    (h2 : ∀ r ∈ rs, labelOk r = true) :
    (∀ r ∈ rs, classify r ∈ fourCats) ∧ |shareSum rs - 100| ≤ 1/25 := by
  have hmem : ∀ r ∈ rs, classify r ∈ fourCats :=
    fun r hr => classify_mem_fourCats r (h2 r hr)
  refine ⟨hmem, ?_⟩
  have hcount := countCat_partition rs hmem
  have hn : (0 : ℚ) < rs.length := by
    have : 0 < rs.length := List.length_pos.mpr h1
    exact_mod_cast this
  set n : ℚ := (rs.length : ℚ) with hnd
  set xh : ℚ := (countCat rs "hallucinated" : ℚ) / n * 100 with hxh
  set xe : ℚ := (countCat rs "empty" : ℚ) / n * 100 with hxe
  set xc : ℚ := (countCat rs "faithful_correct" : ℚ) / n * 100 with hxc
  set xi : ℚ := (countCat rs "faithful_incorrect" : ℚ) / n * 100 with hxi
  have hsum : xh + xe + xc + xi = 100 := by
    have hq : (countCat rs "hallucinated" : ℚ) + countCat rs "empty"
        + countCat rs "faithful_correct" + countCat rs "faithful_incorrect" = n := by
      rw [hnd]
      exact_mod_cast hcount
    rw [hxh, hxe, hxc, hxi]
    field_simp
    linarith
  have hss : shareSum rs = round2 xh + round2 xe + round2 xc + round2 xi := by
    unfold shareSum
    rw [sharePct_eq_round2 rs "hallucinated", sharePct_eq_round2 rs "empty",
      sharePct_eq_round2 rs "faithful_correct",
      sharePct_eq_round2 rs "faithful_incorrect"]
  have bh := abs_le.mp (abs_round2_sub_le xh)
  have be := abs_le.mp (abs_round2_sub_le xe)
  have bc := abs_le.mp (abs_round2_sub_le xc)
  have bi := abs_le.mp (abs_round2_sub_le xi)
  rw [hss, abs_le]
  constructor <;> linarith

/-- A single record carrying the foreign pre-supplied label "banana". -/
def recordBanana : EvalRecord :=
  { content_id := "c9", qa_index := 9, question := "q", gold_answer := "g"
    prediction := "p", exact_match := false, f1_score := 0
    answerable := true, hallucinated := false, type := some "banana"
    content_text := none }

/-- Counterexample to C5 as stated: on the non-empty record list containing
only `recordBanana`, classification returns "banana", which is none of the
four categories, and the four category shares sum to 0, far outside
100.00 plus or minus 0.04. -/
theorem shareSum_counterexample :
    classify recordBanana ∉ fourCats
      ∧ shareSum [recordBanana] = 0
      ∧ ¬ |shareSum [recordBanana] - 100| ≤ 1/25 := by
  have hclass : classify recordBanana = "banana" := rfl
  have hcz : ∀ c ∈ fourCats, countCat [recordBanana] c = 0 := by decide
  have hzero : shareSum [recordBanana] = 0 := by
    unfold shareSum sharePct
    rw [hcz "hallucinated" (by decide), hcz "empty" (by decide),
      hcz "faithful_correct" (by decide), hcz "faithful_incorrect" (by decide)]
    norm_num
  refine ⟨by rw [hclass]; decide, hzero, ?_⟩
  rw [hzero]
  norm_num

/-- Witness for the amended C5, at the two-record sample whose labels are
both admissible. -/
theorem shareSum_near_100_witness :
    (∀ r ∈ samplePair, classify r ∈ fourCats)
      ∧ |shareSum samplePair - 100| ≤ 1/25 :=
  shareSum_near_100 samplePair (by decide) (by decide)

/-- One raw uploaded record before validation: each required field either
present with some JSON value or absent, as `item.get(...)` sees it.
Extra keys never influence validation or aggregation and are omitted. -/
structure RawRecord where
  content_id : Option JVal
  qa_index : Option JVal
  question : Option JVal
  gold_answer : Option JVal
  prediction : Option JVal
  exact_match : Option JVal
  f1_score : Option JVal
  answerable : Option JVal
  hallucinated : Option JVal
  type : Option JVal
deriving DecidableEq

/-- The `REQUIRED_FIELDS` set of `src/app.py` lines 61 to 64, in a fixed
enumeration order. -/
def REQUIRED_FIELDS : List String :=
  ["content_id", "qa_index", "question", "gold_answer", "prediction",
   "exact_match", "f1_score", "answerable", "hallucinated", "type"]

/-- Field access by name, `item.get(field)`. -/
def fieldVal (r : RawRecord) : String → Option JVal
  | "content_id" => r.content_id
  | "qa_index" => r.qa_index
  | "question" => r.question
  | "gold_answer" => r.gold_answer
  | "prediction" => r.prediction
  | "exact_match" => r.exact_match
  | "f1_score" => r.f1_score
  | "answerable" => r.answerable
  | "hallucinated" => r.hallucinated
  | "type" => r.type
  | _ => none

/-- The set difference `REQUIRED_FIELDS - item.keys()`: the required fields
the record lacks. -/
def missingOf (r : RawRecord) : List String :=
  REQUIRED_FIELDS.filter (fun f => (fieldVal r f).isNone)

/-- Python `isinstance(x, bool)` on an optional field value
(`None` when the field is absent, which is not a bool). -/
def isBoolVal : Option JVal → Bool
  | some (JVal.jBool _) => true
  | _ => false

/-- Python `isinstance(x, (int, float))`. A Python `bool` is a subclass of
`int`, so a boolean value passes this check. -/
def isNumVal : Option JVal → Bool
  | some (JVal.jInt _) => true
  | some (JVal.jNum _) => true
  | some (JVal.jBool _) => true
  | _ => false

/-- One validation error message of `validate_submission`, indexed by the
position of the offending record. -/
inductive Violation where
  | missingFields (i : ℕ) (fields : List String)
  | exactMatchNotBool (i : ℕ)
  | f1NotNumeric (i : ℕ)
  | answerableNotBool (i : ℕ)
  | hallucinatedNotBool (i : ℕ)
deriving DecidableEq

/-- The errors `validate_submission` appends for record number `i`, in the
order of the source (`src/app.py` lines 69 to 85): the missing-fields
message first, then the four type checks. -/
def recordViolations (i : ℕ) (r : RawRecord) : List Violation :=
  (if missingOf r ≠ [] then [Violation.missingFields i (missingOf r)] else [])
    ++ (if isBoolVal r.exact_match then [] else [Violation.exactMatchNotBool i])
    ++ (if isNumVal r.f1_score then [] else [Violation.f1NotNumeric i])
    ++ (if isBoolVal r.answerable then [] else [Violation.answerableNotBool i])
    ++ (if isBoolVal r.hallucinated then [] else [Violation.hallucinatedNotBool i])

/-- The enumeration loop of `validate_submission`, carrying the index. -/
def validateFrom (i : ℕ) : List RawRecord → List Violation
  | [] => []
  | r :: rest => recordViolations i r ++ validateFrom (i + 1) rest

/-- The function `validate_submission(data)`: all per-record errors, in
order. -/
def validateSubmission (data : List RawRecord) : List Violation :=
  validateFrom 0 data

/-- One stored submission document of the submissions collection. -/
structure StoredSubmission where
  model : String
  author : String
  tstamp : ℕ
  results : List RawRecord
deriving DecidableEq

/-- The outcome of one upload interaction: whether the file was accepted,
the submissions collection afterwards, the error messages written to the
sidebar (`validation_errors[:5]`), and the count named by the overflow
warning (shown only when more than five errors exist). -/
structure UploadOutcome where
  accepted : Bool
  store : List StoredSubmission
  shown : List Violation
  overflowCount : ℕ
deriving DecidableEq

/-- The upload handler of `src/app.py` lines 95 to 112 for an already parsed
list: validate, and on any error reject wholesale, show the first five
errors plus an overflow count; otherwise insert the submission document. -/
def uploadHandler (model author : String) (tstamp : ℕ) (data : List RawRecord)
    (store : List StoredSubmission) : UploadOutcome :=
  let errs := validateSubmission data
  if errs = [] then
    { accepted := true
      store := store ++ [{ model := if model = "" then "unnamed_model" else model
                           author := if author = "" then "anonymous" else author
                           tstamp := tstamp, results := data }]
      shown := []
      overflowCount := 0 }
  else
    { accepted := false
      store := store
      shown := errs.take 5
      overflowCount := if 5 < errs.length then errs.length - 5 else 0 }

/-- A record with a violation contributes at least one error message. -/
theorem recordViolations_ne_nil (i : ℕ) (r : RawRecord)
    (h : missingOf r ≠ [] ∨ isBoolVal r.exact_match = false
      ∨ isNumVal r.f1_score = false ∨ isBoolVal r.answerable = false
      ∨ isBoolVal r.hallucinated = false) :
    recordViolations i r ≠ [] := by
  unfold recordViolations
  rcases h with h | h | h | h | h <;> simp [h]

/-- If some record of the list has a violation, validation reports at least
one error. -/
theorem validateFrom_ne_nil (data : List RawRecord) (i : ℕ) (r : RawRecord)
    (hr : r ∈ data)
    (h : missingOf r ≠ [] ∨ isBoolVal r.exact_match = false
      ∨ isNumVal r.f1_score = false ∨ isBoolVal r.answerable = false
      ∨ isBoolVal r.hallucinated = false) :
    validateFrom i data ≠ [] := by
  induction data generalizing i with
  | nil => cases hr
  | cons a rest ih =>
      rcases List.mem_cons.mp hr with rfl | hmem
      · simp only [validateFrom, ne_eq, List.append_eq_nil]
        intro hc
        exact recordViolations_ne_nil i r h hc.1
      · simp only [validateFrom, ne_eq, List.append_eq_nil]
        intro hc
        exact ih (i + 1) hmem hc.2

/-- Claim C6: when any record of an upload misses a required field or has a
wrong-typed `exact_match`, `f1_score`, `answerable` or `hallucinated`, the
whole upload is rejected: the submissions store is unchanged (all or
nothing), the surfaced messages are the first five validation errors, and
the overflow count covers exactly the remainder. -/
theorem uploadHandler_rejects_invalid (model author : String) (tstamp : ℕ)
    (data : List RawRecord) (store : List StoredSubmission)
    (h : ∃ r ∈ data, missingOf r ≠ [] ∨ isBoolVal r.exact_match = false
      ∨ isNumVal r.f1_score = false ∨ isBoolVal r.answerable = false
      ∨ isBoolVal r.hallucinated = false) :
    (uploadHandler model author tstamp data store).accepted = false
    ∧ (uploadHandler model author tstamp data store).store = store
    ∧ (uploadHandler model author tstamp data store).shown
        = (validateSubmission data).take 5
    ∧ (uploadHandler model author tstamp data store).shown.length ≤ 5
    ∧ (uploadHandler model author tstamp data store).overflowCount
        = (validateSubmission data).length
          - (uploadHandler model author tstamp data store).shown.length := by
  obtain ⟨r, hr, hviol⟩ := h
  have herr : validateSubmission data ≠ [] :=
    validateFrom_ne_nil data 0 r hr hviol
  unfold uploadHandler
  rw [if_neg herr]
  refine ⟨rfl, rfl, rfl, ?_, ?_⟩
  · simp only [List.length_take]
    exact min_le_left 5 _
  · simp only [List.length_take]
    split <;> omega

/-- An upload whose single record lacks `f1_score` and types `exact_match`
as a string. -/
def rawBad : RawRecord :=
  { content_id := some (JVal.jStr "c1"), qa_index := some (JVal.jInt 0)
    question := some (JVal.jStr "q"), gold_answer := some (JVal.jStr "g")
    prediction := some (JVal.jStr "p"), exact_match := some (JVal.jStr "yes")
    f1_score := none, answerable := some (JVal.jBool true)
    hallucinated := some (JVal.jBool false), type := some (JVal.jStr "empty") }

/-- Witness for C6: the bad single-record upload is rejected and the store
is untouched. -/
theorem uploadHandler_rejects_invalid_witness :
    (uploadHandler "m" "a" 0 [rawBad] []).accepted = false
    ∧ (uploadHandler "m" "a" 0 [rawBad] []).store = []
    ∧ (uploadHandler "m" "a" 0 [rawBad] []).shown
        = (validateSubmission [rawBad]).take 5
    ∧ (uploadHandler "m" "a" 0 [rawBad] []).shown.length ≤ 5
    ∧ (uploadHandler "m" "a" 0 [rawBad] []).overflowCount
        = (validateSubmission [rawBad]).length
          - (uploadHandler "m" "a" 0 [rawBad] []).shown.length :=
  uploadHandler_rejects_invalid "m" "a" 0 [rawBad] [] (by decide)

/-- One submission as read back for aggregation: metadata plus its typed
records. -/
structure Submission where
  model : String
  author : String
  results : List EvalRecord
deriving DecidableEq

/-- One reference sample document; `content_text` is optional because the
construction of the lookup applies `item.get("content_text", "")`. -/
structure RefItem where
  content_id : String
  qa_index : Int
  content_text : Option String
deriving DecidableEq

/-- The `ref_lookup` dictionary of `src/app.py` lines 46 to 51 and
`src/working_1.py` lines 45 to 46, built by a comprehension keyed by
`(content_id, qa_index)` whose later entries overwrite earlier ones, each
value defaulting to the empty string when the document lacks
`content_text`; `none` here is a failed `ref_lookup.get`. -/
def refLookup (items : List RefItem) (k : String × Int) : Option String :=
  (items.reverse.find? (fun it => (it.content_id, it.qa_index) == k)).map
    (fun it => it.content_text.getD "")

/-- The sentinel substituted for an unresolvable context passage. -/
def noContext : String := "[context not available]"

/-- The context resolution of `src/app.py` lines 138 to 142 and
`src/working_1.py` lines 105 to 109. The guard is column-wise: only when no
record of the submission carries a `content_text` does the code fill the
column from the lookup, with the sentinel for absent keys; if at least one
record carries a passage, the remaining records are left untouched. -/
def withLookedUpContext (items : List RefItem) (r : EvalRecord) : EvalRecord :=
  { r with content_text := some ((refLookup items (r.content_id, r.qa_index)).getD noContext) }

/-- The column-wise branch on `"content_text" not in df.columns`: the column
exists exactly when some record of the submission carries the field. -/
def resolveContexts (items : List RefItem) (records : List EvalRecord) :
    List EvalRecord :=
  if records.any (fun r => r.content_text.isSome) then records
  else records.map (withLookedUpContext items)

/-- The leaderboard construction loop of `src/app.py` lines 129 to 160:
a submission whose record list is empty is skipped (`if df.empty:
continue`) and produces no row. -/
def leaderboardRows (subs : List Submission) : List LeaderboardRow :=
  subs.filterMap (fun s =>
    if s.results.isEmpty then none
    else some (rowOf s.model s.author s.results))

/-- Claim C7: every row of the leaderboard comes from a submission with at
least one record; a submission with zero records is skipped and never
yields a row, so no row with undefined (mean-of-nothing) metrics is
emitted. -/
theorem leaderboardRows_from_nonempty (subs : List Submission)
    (row : LeaderboardRow) (h : row ∈ leaderboardRows subs) :
    ∃ s ∈ subs, s.results ≠ [] ∧ row = rowOf s.model s.author s.results := by
  unfold leaderboardRows at h
  obtain ⟨s, hs, hrow⟩ := List.mem_filterMap.mp h
  refine ⟨s, hs, ?_, ?_⟩
  · intro hnil
    rw [hnil] at hrow
    simp at hrow
  · by_cases hemp : s.results.isEmpty
    · rw [if_pos hemp] at hrow
      cases hrow
    · rw [if_neg hemp] at hrow
      exact (Option.some_inj.mp hrow).symm

/-- The two-record sample as a stored submission. -/
def sampleSubmission : Submission :=
  { model := "m", author := "a", results := samplePair }

/-- Witness for C7: the sample row traces back to the non-empty sample
submission. -/
theorem leaderboardRows_from_nonempty_witness :
    ∃ s ∈ [sampleSubmission], s.results ≠ []
      ∧ rowOf "m" "a" samplePair = rowOf s.model s.author s.results :=
  leaderboardRows_from_nonempty [sampleSubmission] (rowOf "m" "a" samplePair)
    (by rw [show leaderboardRows [sampleSubmission]
          = [rowOf "m" "a" samplePair] from rfl]
        exact List.mem_singleton.mpr rfl)

/-- Claim C8, amended: in a submission none of whose records carries a
context passage, every record's passage is resolved through the reference
lookup keyed by `(content_id, qa_index)`, the sentinel standing in exactly
when the key is absent; resolution always returns a record list and never
an error. (When at least one record of the submission carries a passage,
the source leaves the remaining records unresolved; see the
counterexample.) -/
theorem resolveContexts_fills_all (items : List RefItem)
    (records : List EvalRecord)
    (h : ∀ r ∈ records, r.content_text = none) :
    (resolveContexts items records).map (fun r => r.content_text)
      = records.map (fun r =>
          some ((refLookup items (r.content_id, r.qa_index)).getD noContext))
    ∧ ∀ (i : ℕ) (r : EvalRecord), records[i]? = some r →
        refLookup items (r.content_id, r.qa_index) = none →
        (resolveContexts items records)[i]?
          = some { r with content_text := some noContext } := by
  have hany : records.any (fun r => r.content_text.isSome) = false := by
    rw [List.any_eq_false]
    intro r hr
    rw [h r hr]
    simp
  constructor
  · unfold resolveContexts
    rw [if_neg (by rw [hany]; exact Bool.false_ne_true)]
    rw [List.map_map]
    rfl
  · intro i r hi hmiss
    unfold resolveContexts
    rw [if_neg (by rw [hany]; exact Bool.false_ne_true)]
    rw [List.getElem?_map, hi, Option.map_some']
    unfold withLookedUpContext
    rw [hmiss]
    rfl

/-- A record with no context passage, joining to no reference key. -/
def recordNoCtx : EvalRecord :=
  { content_id := "cX", qa_index := 7, question := "q", gold_answer := "g"
    prediction := "p", exact_match := false, f1_score := 0
    answerable := false, hallucinated := false, type := some "empty"
    content_text := none }

/-- A record that carries its own context passage. -/
def recordWithCtx : EvalRecord :=
  { content_id := "cY", qa_index := 8, question := "q", gold_answer := "g"
    prediction := "p", exact_match := true, f1_score := 1
    answerable := true, hallucinated := false, type := some "faithful_correct"
    content_text := some "a passage" }

/-- Witness for the amended C8: with an empty reference store, the lone
context-free record receives the sentinel. -/
theorem resolveContexts_fills_all_witness :
    (resolveContexts [] [recordNoCtx]).map (fun r => r.content_text)
      = [recordNoCtx].map (fun r =>
          some ((refLookup [] (r.content_id, r.qa_index)).getD noContext)) :=
  (resolveContexts_fills_all [] [recordNoCtx] (by decide)).1

/-- Counterexample to C8 as stated: in a submission where one record carries
a passage and another does not, the record lacking the passage is not
resolved at all — its context stays absent instead of being looked up or
replaced by the sentinel, because the source only checks whether the whole
`content_text` column is missing. -/
theorem resolveContexts_counterexample :
    recordNoCtx.content_text = none
    ∧ refLookup [] (recordNoCtx.content_id, recordNoCtx.qa_index) = none
    ∧ resolveContexts [] [recordWithCtx, recordNoCtx]
        = [recordWithCtx, recordNoCtx]
    ∧ (resolveContexts [] [recordWithCtx, recordNoCtx]).map
        (fun r => r.content_text) ≠ [some "a passage", some noContext] := by
  refine ⟨rfl, rfl, rfl, ?_⟩
  decide

/-- The decimal digit character for `n < 10`. -/
def digitChar (n : ℕ) : Char := Char.ofNat (48 + n)

/-- Two-digit zero-padded decimal rendering, strftime `%m`, `%d`, `%H`,
`%M`, `%S`; the fields of `datetime.now()` all lie below 100. -/
def pad2 (n : ℕ) : List Char := [digitChar (n / 10 % 10), digitChar (n % 10)]

/-- Four-digit zero-padded decimal rendering, strftime `%Y`; calendar years
of `datetime.now()` lie below 10000. -/
def pad4 (n : ℕ) : List Char :=
  [digitChar (n / 1000 % 10), digitChar (n / 100 % 10),
   digitChar (n / 10 % 10), digitChar (n % 10)]

/-- A wall-clock timestamp as delivered by `datetime.now()`. -/
structure Timestamp where
  year : ℕ
  month : ℕ
  day : ℕ
  hour : ℕ
  minute : ℕ
  second : ℕ
deriving DecidableEq

/-- The timestamp rendering `strftime("%Y%m%d_%H%M%S")`. -/
def formatTs (t : Timestamp) : List Char :=
  pad4 t.year ++ pad2 t.month ++ pad2 t.day ++ ['_']
    ++ pad2 t.hour ++ pad2 t.minute ++ pad2 t.second

/-- Python `s.replace(" ", "_")`, character by character. -/
def pyReplaceSpace (s : List Char) : List Char :=
  s.map (fun c => if c = ' ' then '_' else c)

/-- The backup filename of `src/working_1.py` lines 65 to 68:
`f"{name.replace(' ', '_')}_{author.replace(' ', '_')}_{timestamp}.json"`
with the empty model and author names defaulted first. -/
def submissionFilename (model author : List Char) (t : Timestamp) : List Char :=
  pyReplaceSpace (if model = [] then "unnamed_model".data else model)
    ++ '_' :: (pyReplaceSpace (if author = [] then "anonymous".data else author)
    ++ '_' :: (formatTs t ++ ".json".data))

/-- Replacing spaces with underscores leaves no space behind. -/
theorem pyReplaceSpace_no_space (s : List Char) :
    ∀ c ∈ pyReplaceSpace s, c ≠ ' ' := by
  intro c hc
  obtain ⟨d, _, hmap⟩ := List.mem_map.mp hc
  by_cases hd : d = ' '
  · rw [if_pos hd] at hmap
    rw [← hmap]
    decide
  · rw [if_neg hd] at hmap
    rw [← hmap]
    exact hd

/-- The digit characters are digits. -/
theorem digitChar_isDigit (n : ℕ) (h : n < 10) : (digitChar n).isDigit = true := by
  interval_cases n <;> decide

/-- Claim C9: the persisted submission file name of the file-backed variant
is the model, the author and the timestamp joined by underscores with the
`.json` suffix; spaces in model and author are replaced by underscores, and
the timestamp part has the shape YYYYMMDD_HHMMSS: fifteen characters, an
underscore at position eight and decimal digits everywhere else. -/
theorem submissionFilename_shape (model author : List Char) (t : Timestamp) :
    submissionFilename model author t
      = pyReplaceSpace (if model = [] then "unnamed_model".data else model)
        ++ '_' :: (pyReplaceSpace (if author = [] then "anonymous".data else author)
        ++ '_' :: (formatTs t ++ ".json".data))
    ∧ (∀ c ∈ pyReplaceSpace (if model = [] then "unnamed_model".data else model), c ≠ ' ')
    ∧ (∀ c ∈ pyReplaceSpace (if author = [] then "anonymous".data else author), c ≠ ' ')
    ∧ (formatTs t).length = 15
    ∧ (formatTs t)[8]? = some '_'
    ∧ (∀ c ∈ (formatTs t).take 8, c.isDigit = true)
    ∧ (∀ c ∈ (formatTs t).drop 9, c.isDigit = true) := by
  refine ⟨rfl, pyReplaceSpace_no_space _, pyReplaceSpace_no_space _, rfl, rfl, ?_, ?_⟩
  · intro c hc
    have htake : (formatTs t).take 8
        = [digitChar (t.year / 1000 % 10), digitChar (t.year / 100 % 10),
           digitChar (t.year / 10 % 10), digitChar (t.year % 10),
           digitChar (t.month / 10 % 10), digitChar (t.month % 10),
           digitChar (t.day / 10 % 10), digitChar (t.day % 10)] := rfl
    rw [htake] at hc
    simp only [List.mem_cons, List.not_mem_nil, or_false] at hc
    rcases hc with rfl | rfl | rfl | rfl | rfl | rfl | rfl | rfl <;>
      exact digitChar_isDigit _ (Nat.mod_lt _ (by norm_num))
  · intro c hc
    have hdrop : (formatTs t).drop 9
        = [digitChar (t.hour / 10 % 10), digitChar (t.hour % 10),
           digitChar (t.minute / 10 % 10), digitChar (t.minute % 10),
           digitChar (t.second / 10 % 10), digitChar (t.second % 10)] := rfl
    rw [hdrop] at hc
    simp only [List.mem_cons, List.not_mem_nil, or_false] at hc
    rcases hc with rfl | rfl | rfl | rfl | rfl | rfl <;>
      exact digitChar_isDigit _ (Nat.mod_lt _ (by norm_num))

/-- Claim C10: when the winning reference document for a key exists but has
no `content_text`, the lookup maps the key to the empty string, and a
context-free record joining to it receives `""`, not the sentinel; the
sentinel appears exactly when no reference document carries the key. -/
theorem refLookup_missing_content_text (items : List RefItem) (r : EvalRecord)
    (hr : r.content_text = none) :
    (∀ it : RefItem,
        items.reverse.find?
            (fun x => (x.content_id, x.qa_index) == (r.content_id, r.qa_index))
          = some it →
        it.content_text = none →
        refLookup items (r.content_id, r.qa_index) = some ""
        ∧ (resolveContexts items [r]).map (fun x => x.content_text) = [some ""])
    ∧ ((∀ it ∈ items, (it.content_id, it.qa_index) ≠ (r.content_id, r.qa_index)) →
        refLookup items (r.content_id, r.qa_index) = none
        ∧ (resolveContexts items [r]).map (fun x => x.content_text)
            = [some noContext]) := by
  have hres : resolveContexts items [r] = [withLookedUpContext items r] := by
    unfold resolveContexts
    rw [if_neg]
    · rfl
    · simp [hr]
  constructor
  · intro it hfind hnone
    have hlook : refLookup items (r.content_id, r.qa_index) = some "" := by
      unfold refLookup
      rw [hfind, Option.map_some', hnone]
      rfl
    refine ⟨hlook, ?_⟩
    rw [hres]
    unfold withLookedUpContext
    rw [hlook]
    rfl
  · intro hnone
    have hfind : items.reverse.find?
        (fun x => (x.content_id, x.qa_index) == (r.content_id, r.qa_index))
        = none := by
      rw [List.find?_eq_none]
      intro x hx
      simp only [beq_iff_eq]
      exact hnone x (List.mem_reverse.mp hx)
    have hlook : refLookup items (r.content_id, r.qa_index) = none := by
      unfold refLookup
      rw [hfind]
      rfl
    refine ⟨hlook, ?_⟩
    rw [hres]
    unfold withLookedUpContext
    rw [hlook]
    rfl

/-- A reference document for the key of `recordNoCtx` that lacks a
`content_text` field. -/
def refItemBare : RefItem := { content_id := "cX", qa_index := 7, content_text := none }

/-- Witness for C10: joining `recordNoCtx` to the bare reference document
yields the empty string, not the sentinel. -/
theorem refLookup_missing_content_text_witness :
    refLookup [refItemBare] (recordNoCtx.content_id, recordNoCtx.qa_index) = some ""
    ∧ (resolveContexts [refItemBare] [recordNoCtx]).map (fun x => x.content_text)
        = [some ""] :=
  (refLookup_missing_content_text [refItemBare] recordNoCtx rfl).1 refItemBare rfl rfl

end Jnana
